import Mathlib

/-!
Verification of the `sc2reader` GameEngine dispatch core
(`src/sc2reader/engine/engine.py`) against its specification.

The embedding models:
* events as records carrying a concrete `name`, membership flags for the
  seven fixed categories, and the payload fields of a `PluginExit` event;
* plugins as records with an identity (`id`, standing for Python object
  identity), a `name`, the set of `handle<Name>` attributes they expose
  (`methods`, storing the `<Name>` suffixes), and a `behavior` function
  giving the list of events a handler invocation yields;
* the run loop of `GameEngine.run` as a fuel-indexed transition function on
  an explicit `RunState` (queue, local active-plugin list, handler cache,
  outcome mapping), instrumented with a `trace` recording, in order, each
  dispatched event together with the handler list used for it and each
  processed plugin exit.
-/

namespace SC2

/-- A `details` mapping (Python `dict`), as carried by `PluginExit` events and
stored in `replay.plugins` outcome records. -/
abbrev Details := List (String × String)

/-- An event of the engine.  `name` is the concrete event name
(`event.name` in the source).  The seven `is*` flags model
`isinstance(event, C)` for the seven fixed category classes.  The
`exit*` fields model the `plugin`/`code`/`details` attributes of a
`PluginExit` event (`exitPlugin` is the Python object identity of the
referenced plugin); they are meaningful only when `name = "PluginExit"`. -/
structure Ev where
  name : String
  isEvent : Bool := false
  isMessageEvent : Bool := false
  isGameEvent : Bool := false
  isTrackerEvent : Bool := false
  isPlayerActionEvent : Bool := false
  isAbilityEvent : Bool := false
  isHotkeyEvent : Bool := false
  exitPlugin : Nat := 0
  exitCode : Int := 0
  exitDetails : Details := []

/-- A plugin.  `id` models Python object identity (used by `plugins.remove`),
`name` is the plugin's `name` attribute, `methods` holds the suffixes `s`
for which the plugin object exposes an attribute `handle<s>`
(so `hasattr(plugin, "handle"+s)` iff `s ∈ methods`), and `behavior s e`
is the list of events yielded by calling the bound method `handle<s>`
on event `e` (the empty list models a handler returning `None`). -/
structure Plugin where
  id : Nat
  name : String
  methods : List String
  behavior : String → Ev → List Ev

/-- A handler reference: the bound method `handle<method>` of the plugin
object with identity `pid` (the value of `getattr(plugin, "handle"+name)`). -/
structure Handler where
  pid : Nat
  method : String
deriving DecidableEq, Repr

/-- `GameEngine._has_event_handler(plugin, event)`:
`hasattr(plugin, "handle"+event.name)`.  The argument is the `name` of the
event or category class being checked. -/
def _has_event_handler (plugin : Plugin) (name : String) : Bool :=
  plugin.methods.contains name

/-- `GameEngine._get_event_handler(plugin, event)`:
`getattr(plugin, "handle"+event.name, None)` — a reference to the plugin's
bound method for that name. -/
def _get_event_handler (plugin : Plugin) (name : String) : Handler :=
  { pid := plugin.id, method := name }

/-- One conditional `handlers.append(...)` of the source: the singleton list
when the guard holds, else nothing. -/
def optHandler (b : Bool) (h : Handler) : List Handler :=
  if b then [h] else []

/-- `GameEngine._get_plugin_event_handlers(plugin, event)`: the seven
category checks (`isinstance(event, C) and self._has_event_handler(plugin, C)`)
in source order, followed by the concrete-name check
(`self._has_event_handler(plugin, event)`). -/
def _get_plugin_event_handlers (p : Plugin) (e : Ev) : List Handler :=
  optHandler (e.isEvent && _has_event_handler p "Event") (_get_event_handler p "Event")
  ++ optHandler (e.isMessageEvent && _has_event_handler p "MessageEvent") (_get_event_handler p "MessageEvent")
  ++ optHandler (e.isGameEvent && _has_event_handler p "GameEvent") (_get_event_handler p "GameEvent")
  ++ optHandler (e.isTrackerEvent && _has_event_handler p "TrackerEvent") (_get_event_handler p "TrackerEvent")
  ++ optHandler (e.isPlayerActionEvent && _has_event_handler p "PlayerActionEvent") (_get_event_handler p "PlayerActionEvent")
  ++ optHandler (e.isAbilityEvent && _has_event_handler p "AbilityEvent") (_get_event_handler p "AbilityEvent")
  ++ optHandler (e.isHotkeyEvent && _has_event_handler p "HotkeyEvent") (_get_event_handler p "HotkeyEvent")
  ++ optHandler (_has_event_handler p e.name) (_get_event_handler p e.name)

/-- `GameEngine._get_event_handlers(event, plugins)`:
`sum([self._get_plugin_event_handlers(plugin, event) for plugin in plugins], [])`. -/
def _get_event_handlers (e : Ev) (plugins : List Plugin) : List Handler :=
  (plugins.map (fun p => _get_plugin_event_handlers p e)).flatten

/-- The seven event categories, in the fixed precedence order of §3 of the
specification. -/
inductive Category
  | event
  | messageEvent
  | gameEvent
  | trackerEvent
  | playerActionEvent
  | abilityEvent
  | hotkeyEvent
deriving DecidableEq, Repr

/-- The name of a category class. -/
def Category.catName : Category → String
  | .event => "Event"
  | .messageEvent => "MessageEvent"
  | .gameEvent => "GameEvent"
  | .trackerEvent => "TrackerEvent"
  | .playerActionEvent => "PlayerActionEvent"
  | .abilityEvent => "AbilityEvent"
  | .hotkeyEvent => "HotkeyEvent"

/-- Whether an event belongs to a category (`isinstance(event, C)`). -/
def Ev.belongs (e : Ev) : Category → Bool
  | .event => e.isEvent
  | .messageEvent => e.isMessageEvent
  | .gameEvent => e.isGameEvent
  | .trackerEvent => e.isTrackerEvent
  | .playerActionEvent => e.isPlayerActionEvent
  | .abilityEvent => e.isAbilityEvent
  | .hotkeyEvent => e.isHotkeyEvent

/-- The fixed category precedence order of §3 of the specification. -/
def categoryOrder : List Category :=
  [.event, .messageEvent, .gameEvent, .trackerEvent, .playerActionEvent,
   .abilityEvent, .hotkeyEvent]

/-- Per-plugin handler list, written from the specification's wording (§4.2):
for every category, in the fixed precedence order, that the event belongs to
and for which the plugin exposes a handler named for that category, that
handler; after all matching categories, the plugin's handler named for the
event's own concrete kind, if exposed, last. -/
def pluginHandlersSpec (p : Plugin) (e : Ev) : List Handler :=
  (categoryOrder.filter (fun c => e.belongs c && _has_event_handler p c.catName)).map
    (fun c => _get_event_handler p c.catName)
  ++ optHandler (_has_event_handler p e.name) (_get_event_handler p e.name)

/-- Full resolution, written from the specification's wording (§4.2):
the concatenation, in active-plugin order, of each plugin's own list. -/
def eventHandlersSpec (e : Ev) (plugins : List Plugin) : List Handler :=
  (plugins.map (fun p => pluginHandlersSpec p e)).flatten

/-- One entry of the (instrumentation) trace of a run: either the dispatch of
a non-control event, recording its name and the ordered handler list invoked
for it, or the processing of a `PluginExit` control event, recording the
identity of the removed plugin. -/
inductive TraceEntry
  | dispatch (evName : String) (hs : List Handler)
  | exited (pid : Nat)
deriving DecidableEq, Repr

/-- Lookup in an association list modelling a Python `dict` (at most one
entry per key once built with `setKey`). -/
def lookupKey {α : Type} : List (String × α) → String → Option α
  | [], _ => none
  | (k1, v) :: m, k => if k1 = k then some v else lookupKey m k

/-- `d[k] = v` on a Python `dict` modelled as an association list: replace
the existing entry for `k`, or append a new one. -/
def setKey {α : Type} : List (String × α) → String → α → List (String × α)
  | [], k, v => [(k, v)]
  | (k1, v1) :: m, k, v => if k1 = k then (k, v) :: m else (k1, v1) :: setKey m k v

/-- `plugins.remove(plugin)` (Python list removal by identity): remove the
first element whose identity is `pid` and return it with the remaining list,
or `none` (modelling the `ValueError`) when no element matches. -/
def removeFirst : List Plugin → Nat → Option (Plugin × List Plugin)
  | [], _ => none
  | p :: ps, pid =>
    if p.id = pid then some (p, ps)
    else
      match removeFirst ps pid with
      | none => none
      | some (q, rest) => some (q, p :: rest)

/-- Find the plugin object with identity `pid`. -/
def findPlugin : List Plugin → Nat → Option Plugin
  | [], _ => none
  | p :: ps, pid => if p.id = pid then some p else findPlugin ps pid

/-- Calling a handler reference: `event_handler(event, replay)`.  The bound
method belongs to the plugin object with identity `h.pid`, all of which live
in the engine's registry `reg`; the result is the (finite) list of events the
handler yields, `[]` standing for `None`. -/
def invoke (reg : List Plugin) (h : Handler) (e : Ev) : List Ev :=
  match findPlugin reg h.pid with
  | some p => p.behavior h.method e
  | none => []

/-- The state of one `GameEngine.run` invocation: the event queue, the local
active-plugin list (`plugins = list(self._plugins)`), the handler cache
(`handlers` dict), the outcome mapping (`replay.plugins`), and the
instrumentation trace of processed events. -/
structure RunState where
  queue : List Ev
  plugins : List Plugin
  handlers : List (String × List Handler)
  outcome : List (String × (Int × Details))
  trace : List TraceEntry

/-- The result of a run: normal completion, the uncaught `ValueError` from
`plugins.remove` on an exit event naming an inactive plugin, or fuel
exhaustion (the Python loop has no fuel; `outOfFuel` marks runs the fuel
parameter was too small to finish).  Each constructor carries the state at
that point. -/
inductive RunResult
  | ok (s : RunState)
  | valueError (s : RunState)
  | outOfFuel (s : RunState)

/-- The state carried by a run result. -/
def RunResult.state : RunResult → RunState
  | .ok s => s
  | .valueError s => s
  | .outOfFuel s => s

/-- Whether a run completed normally. -/
def RunResult.isOk : RunResult → Bool
  | .ok _ => true
  | _ => false

/-- The final `for plugin in plugins: replay.plugins[plugin.name] = (0, dict())`
loop of `run`. -/
def recordDefaults (plugins : List Plugin) (m : List (String × (Int × Details))) :
    List (String × (Int × Details)) :=
  plugins.foldl (fun acc p => setKey acc p.name (0, [])) m

/-- State after the terminal default-outcome recording. -/
def finalizeState (s : RunState) : RunState :=
  { s with outcome := recordDefaults s.plugins s.outcome }

/-- State after processing a `PluginExit` event `e` whose `plugins.remove`
succeeded, returning removed plugin `pr.1` and remaining list `pr.2`:
the handler cache is cleared and the outcome recorded. -/
def exitState (s : RunState) (rest : List Ev) (pr : Plugin × List Plugin) (e : Ev) : RunState :=
  { queue := rest
    plugins := pr.2
    handlers := []
    outcome := setKey s.outcome pr.1.name (e.exitCode, e.exitDetails)
    trace := s.trace ++ [.exited pr.1.id] }

/-- State after dispatching a non-control event `e` with handler list `hs`
and (possibly updated) cache `cache`: every handler is invoked in order, the
yielded events are collected into one batch (`new_events`), and
`event_queue.extendleft(new_events)` prepends the batch reversed. -/
def dispatchState (reg : List Plugin) (s : RunState) (e : Ev) (rest : List Ev)
    (hs : List Handler) (cache : List (String × List Handler)) : RunState :=
  { queue := ((hs.map (fun h => invoke reg h e)).flatten).reverse ++ rest
    plugins := s.plugins
    handlers := cache
    outcome := s.outcome
    trace := s.trace ++ [.dispatch e.name hs] }

/-- The `while len(event_queue) > 0` loop of `GameEngine.run`, with explicit
fuel.  `reg` is the engine's registry (`self._plugins`), consulted only to
resolve bound-method references in `invoke`. -/
def runLoop (reg : List Plugin) : Nat → RunState → RunResult
  | 0, s => .outOfFuel s
  | fuel + 1, s =>
    match s.queue with
    | [] => .ok (finalizeState s)
    | e :: rest =>
      if e.name = "PluginExit" then
        match removeFirst s.plugins e.exitPlugin with
        | none => .valueError { s with queue := rest }
        | some pr => runLoop reg fuel (exitState s rest pr e)
      else
        match lookupKey s.handlers e.name with
        | some hs => runLoop reg fuel (dispatchState reg s e rest hs s.handlers)
        | none =>
          runLoop reg fuel
            (dispatchState reg s e rest (_get_event_handlers e s.plugins)
              (setKey s.handlers e.name (_get_event_handlers e s.plugins)))

/-- Modelled from the spec: the init sentinel event.  Its class
(`sc2reader/engine/events.py`) is not under `src/`; per §3/§4.3 it is a
plain event with concrete name `InitGame`, not a member of the seven
categories, dispatched through the ordinary resolution path. -/
def InitGameEvent : Ev := { name := "InitGame" }

/-- Modelled from the spec: the end sentinel event, concrete name `EndGame`
(see `InitGameEvent`). -/
def EndGameEvent : Ev := { name := "EndGame" }

/-- Modelled from the spec: a `PluginExit` control event referencing plugin
`p` with the given exit code and details (`sc2reader/engine/events.py` is not
under `src/`). -/
def PluginExitEvent (p : Plugin) (code : Int) (details : Details) : Ev :=
  { name := "PluginExit", exitPlugin := p.id, exitCode := code, exitDetails := details }

/-- The engine: owns the plugin registry `_plugins`. -/
structure GameEngine where
  _plugins : List Plugin

/-- `GameEngine.register_plugin`: appends to the owned list. -/
def GameEngine.register_plugin (g : GameEngine) (p : Plugin) : GameEngine :=
  { _plugins := g._plugins ++ [p] }

/-- `GameEngine.register_plugins`: registers each argument in order. -/
def GameEngine.register_plugins (g : GameEngine) (ps : List Plugin) : GameEngine :=
  ps.foldl GameEngine.register_plugin g

/-- `GameEngine.run(replay)`: fresh handler cache, local copy of the plugin
list, fresh outcome mapping, and the queue seeded as
`[InitGameEvent] + replay.events + [EndGameEvent]`. -/
def GameEngine.run (g : GameEngine) (events : List Ev) (fuel : Nat) : RunResult :=
  runLoop g._plugins fuel
    { queue := InitGameEvent :: (events ++ [EndGameEvent])
      plugins := g._plugins
      handlers := []
      outcome := []
      trace := [] }

/-- State-passing translation of `run`'s effect on the engine object itself:
the source reads `self._plugins` once (`plugins = list(self._plugins)`, a
copy) and never assigns to `self`, so the engine component is threaded
through unchanged. -/
def GameEngine.runMut (g : GameEngine) (events : List Ev) (fuel : Nat) :
    GameEngine × RunResult :=
  (g, g.run events fuel)

/-- The identities of a plugin list. -/
def pluginIds (ps : List Plugin) : List Nat := ps.map Plugin.id

/-- Identities of plugins whose exit was processed, in trace order. -/
def exitedPids (t : List TraceEntry) : List Nat :=
  t.filterMap fun entry =>
    match entry with
    | .exited pid => some pid
    | _ => none

/-! ### Basic lemmas about the association-list and plugin-list helpers -/

theorem lookupKey_setKey_self {α : Type} (m : List (String × α)) (k : String) (v : α) :
    lookupKey (setKey m k v) k = some v := by
  induction m with
  | nil => simp [setKey, lookupKey]
  | cons kv m ih =>
    by_cases h : kv.1 = k
    · simp [setKey, h, lookupKey]
    · simp [setKey, h, lookupKey, ih]

theorem lookupKey_setKey_ne {α : Type} (m : List (String × α)) (k k1 : String) (v : α)
    (h : k1 ≠ k) : lookupKey (setKey m k v) k1 = lookupKey m k1 := by
  have hk : ¬ k = k1 := fun h1 => h h1.symm
  induction m with
  | nil => simp [setKey, lookupKey, hk]
  | cons kv m ih =>
    obtain ⟨ka, va⟩ := kv
    by_cases h2 : ka = k
    · subst h2
      simp [setKey, lookupKey, hk]
    · simp [setKey, h2, lookupKey, ih]

theorem mem_of_findPlugin {reg : List Plugin} {pid : Nat} {p : Plugin}
    (h : findPlugin reg pid = some p) : p ∈ reg := by
  induction reg with
  | nil => simp [findPlugin] at h
  | cons q reg ih =>
    by_cases h2 : q.id = pid
    · simp [findPlugin, h2] at h
      simp [h]
    · simp [findPlugin, h2] at h
      exact List.mem_cons_of_mem _ (ih h)

theorem removeFirst_eq_none {ps : List Plugin} {pid : Nat}
    (h : pid ∉ pluginIds ps) : removeFirst ps pid = none := by
  induction ps with
  | nil => rfl
  | cons p ps ih =>
    have h1 : ¬ p.id = pid := fun h2 => h (by rw [← h2]; exact List.mem_cons_self _ _)
    have h2 : pid ∉ pluginIds ps := fun h3 => h (List.mem_cons_of_mem _ h3)
    rw [removeFirst, if_neg h1, ih h2]

/-- `plugins.remove` decomposition: on success, the list splits around the
first element with the sought identity. -/
theorem removeFirst_eq_some {ps : List Plugin} {pid : Nat} {p : Plugin}
    {rest : List Plugin} (h : removeFirst ps pid = some (p, rest)) :
    ∃ l r, ps = l ++ p :: r ∧ rest = l ++ r ∧ p.id = pid ∧ ∀ q ∈ l, q.id ≠ pid := by
  induction ps generalizing rest with
  | nil => simp [removeFirst] at h
  | cons q ps ih =>
    by_cases h2 : q.id = pid
    · simp [removeFirst, h2] at h
      exact ⟨[], ps, by simp [h.1], by simp [h.2], by rw [← h.1]; exact h2, by simp⟩
    · simp only [removeFirst, h2, if_false] at h
      match h3 : removeFirst ps pid with
      | none => rw [h3] at h; simp at h
      | some (q2, rest2) =>
        rw [h3] at h
        simp at h
        obtain ⟨l, r, hps, hrest, hid, hl⟩ := ih (h.1 ▸ h3)
        exact ⟨q :: l, r, by simp [hps], by simp [← h.2, hrest], hid,
          by intro x hx; rcases List.mem_cons.mp hx with h4 | h4
             · exact h4 ▸ h2
             · exact hl x h4⟩

theorem pluginIds_append (l r : List Plugin) :
    pluginIds (l ++ r) = pluginIds l ++ pluginIds r := by
  simp [pluginIds]

theorem removeFirst_ids_sub {ps : List Plugin} {pid : Nat} {p : Plugin}
    {rest : List Plugin} (h : removeFirst ps pid = some (p, rest)) :
    ∀ x ∈ pluginIds rest, x ∈ pluginIds ps := by
  obtain ⟨l, r, hps, hrest, _, _⟩ := removeFirst_eq_some h
  intro x hx
  rw [hrest, pluginIds_append] at hx
  rw [hps, pluginIds_append]
  rcases List.mem_append.mp hx with h1 | h1
  · exact List.mem_append.mpr (Or.inl h1)
  · exact List.mem_append.mpr (Or.inr (by simp [pluginIds] at h1 ⊢; tauto))

theorem removeFirst_nodup {ps : List Plugin} {pid : Nat} {p : Plugin}
    {rest : List Plugin} (h : removeFirst ps pid = some (p, rest))
    (hnd : (pluginIds ps).Nodup) : (pluginIds rest).Nodup := by
  obtain ⟨l, r, hps, hrest, _, _⟩ := removeFirst_eq_some h
  rw [hps, pluginIds_append] at hnd
  rw [hrest, pluginIds_append]
  have hsub : List.Sublist (pluginIds l ++ pluginIds r) (pluginIds l ++ pluginIds (p :: r)) :=
    List.Sublist.append_left (List.sublist_cons_self p.id (pluginIds r)) (pluginIds l)
  exact hnd.sublist hsub

theorem removeFirst_not_mem {ps : List Plugin} {pid : Nat} {p : Plugin}
    {rest : List Plugin} (h : removeFirst ps pid = some (p, rest))
    (hnd : (pluginIds ps).Nodup) : pid ∉ pluginIds rest := by
  obtain ⟨l, r, hps, hrest, hid, hl⟩ := removeFirst_eq_some h
  rw [hps, pluginIds_append] at hnd
  rw [hrest, pluginIds_append]
  intro hmem
  rcases List.mem_append.mp hmem with h1 | h1
  · simp [pluginIds] at h1
    obtain ⟨q, hq, hq2⟩ := h1
    exact hl q hq hq2
  · have h2 : (pluginIds (p :: r)).Nodup := hnd.of_append_right
    simp [pluginIds] at h2 h1
    obtain ⟨q, hq, hq2⟩ := h1
    exact h2.1 q hq (by rw [hq2, hid])

/-- Every handler a plugin contributes is a bound method of that plugin. -/
theorem mem_plugin_handlers_pid {p : Plugin} {e : Ev} {h : Handler}
    (hm : h ∈ _get_plugin_event_handlers p e) : h.pid = p.id := by
  simp only [_get_plugin_event_handlers, optHandler, List.mem_append] at hm
  rcases hm with ((((((h1 | h1) | h1) | h1) | h1) | h1) | h1) | h1 <;>
    · split at h1 <;> simp_all [_get_event_handler]

/-- Every resolved handler belongs to one of the plugins resolved against. -/
theorem mem_event_handlers_pid {e : Ev} {ps : List Plugin} {h : Handler}
    (hm : h ∈ _get_event_handlers e ps) : h.pid ∈ pluginIds ps := by
  simp only [_get_event_handlers, List.mem_flatten, List.mem_map] at hm
  obtain ⟨l, ⟨p, hp, hl⟩, hmem⟩ := hm
  subst hl
  simp [pluginIds]
  exact ⟨p, hp, (mem_plugin_handlers_pid hmem).symm⟩

/-! ### Step equations for the run loop -/

theorem runLoop_zero (reg : List Plugin) (s : RunState) :
    runLoop reg 0 s = .outOfFuel s := rfl

theorem runLoop_done (reg : List Plugin) (fuel : Nat) (s : RunState)
    (hq : s.queue = []) : runLoop reg (fuel + 1) s = .ok (finalizeState s) := by
  obtain ⟨q, pl, ca, oc, tr⟩ := s
  simp only at hq
  subst hq
  rfl

theorem runLoop_exit_fail (reg : List Plugin) (fuel : Nat) (s : RunState)
    (e : Ev) (rest : List Ev) (hq : s.queue = e :: rest)
    (hn : e.name = "PluginExit")
    (hr : removeFirst s.plugins e.exitPlugin = none) :
    runLoop reg (fuel + 1) s = .valueError { s with queue := rest } := by
  obtain ⟨q, pl, ca, oc, tr⟩ := s
  simp only at hq hr
  subst hq
  simp only [runLoop, hn, if_true, hr]

theorem runLoop_exit_step (reg : List Plugin) (fuel : Nat) (s : RunState)
    (e : Ev) (rest : List Ev) (pr : Plugin × List Plugin)
    (hq : s.queue = e :: rest) (hn : e.name = "PluginExit")
    (hr : removeFirst s.plugins e.exitPlugin = some pr) :
    runLoop reg (fuel + 1) s = runLoop reg fuel (exitState s rest pr e) := by
  obtain ⟨q, pl, ca, oc, tr⟩ := s
  simp only at hq hr
  subst hq
  simp only [runLoop, hn, if_true, hr]

theorem runLoop_dispatch_hit (reg : List Plugin) (fuel : Nat) (s : RunState)
    (e : Ev) (rest : List Ev) (hs : List Handler)
    (hq : s.queue = e :: rest) (hn : ¬ e.name = "PluginExit")
    (hc : lookupKey s.handlers e.name = some hs) :
    runLoop reg (fuel + 1) s = runLoop reg fuel (dispatchState reg s e rest hs s.handlers) := by
  obtain ⟨q, pl, ca, oc, tr⟩ := s
  simp only at hq hc
  subst hq
  simp only [runLoop, hn, if_false, hc]

theorem runLoop_dispatch_miss (reg : List Plugin) (fuel : Nat) (s : RunState)
    (e : Ev) (rest : List Ev)
    (hq : s.queue = e :: rest) (hn : ¬ e.name = "PluginExit")
    (hc : lookupKey s.handlers e.name = none) :
    runLoop reg (fuel + 1) s =
      runLoop reg fuel
        (dispatchState reg s e rest (_get_event_handlers e s.plugins)
          (setKey s.handlers e.name (_get_event_handlers e s.plugins))) := by
  obtain ⟨q, pl, ca, oc, tr⟩ := s
  simp only at hq hc
  subst hq
  simp only [runLoop, hn, if_false, hc]

/-! ### Concrete plugins and events used in witnesses and counterexamples -/

/-- Two inert domain events used as payloads of a multi-event yield. -/
def evX : Ev := { name := "X" }

/-- See `evX`. -/
def evY : Ev := { name := "Y" }

/-- A domain event handled only by its concrete name `Evt1`. -/
def evT : Ev := { name := "Evt1" }

/-- A plugin whose `handleEvt1` yields the two events `[evX, evY]` in that
production order. -/
def pYield : Plugin :=
  { id := 1, name := "A", methods := ["Evt1"],
    behavior := fun m _ => if m = "Evt1" then [evX, evY] else [] }

/-- A plugin exposing only `handleMessageEvent`. -/
def pMsg : Plugin :=
  { id := 1, name := "P", methods := ["MessageEvent"], behavior := fun _ _ => [] }

/-- An event whose concrete name `MessageEvent` coincides with the name of a
category it belongs to (an instance of the `MessageEvent` class itself). -/
def eMsg : Ev := { name := "MessageEvent", isEvent := true, isMessageEvent := true }

/-- An inert plugin with identity 3 handling `Evt1`, registered twice in the
duplicate-registration counterexample. -/
def pDup : Plugin :=
  { id := 3, name := "D", methods := ["Evt1"], behavior := fun _ _ => [] }

/-- A `PluginExit` input event naming the plugin with identity 3. -/
def exitD : Ev := { name := "PluginExit", exitPlugin := 3, exitCode := 5 }

/-- A plugin exposing `handlePluginExit`, to show that exit events still
bypass handler resolution. -/
def pW : Plugin := { id := 7, name := "W", methods := ["PluginExit"], behavior := fun _ _ => [] }

/-- A `PluginExit` event naming `pW`, with a nonempty details mapping. -/
def exW : Ev :=
  { name := "PluginExit", exitPlugin := 7, exitCode := 3, exitDetails := [("msg", "bye")] }

/-- A mid-run state whose front event is `exW` and whose handler cache is
nonempty. -/
def sW : RunState :=
  { queue := [exW]
    plugins := [pW]
    handlers := [("Evt1", [{ pid := 7, method := "Evt1" }])]
    outcome := []
    trace := [] }

/-- An inert plugin with identity 8 named `B`. -/
def pB7 : Plugin := { id := 8, name := "B", methods := [], behavior := fun _ _ => [] }

/-- A `PluginExit` event naming identity 9, which no active plugin has. -/
def exUnknown : Ev := { name := "PluginExit", exitPlugin := 9 }

/-- A mid-run state (one plugin already exited, its outcome recorded) whose
front event is an exit naming an inactive plugin. -/
def sUnknown : RunState :=
  { queue := [exUnknown, { name := "Z" }]
    plugins := [pB7]
    handlers := []
    outcome := [("A", (5, []))]
    trace := [.exited 9] }

/-! ### Claim theorems -/

/-- Helper for C2: filtering then mapping a list equals flattening the
per-element optional singleton lists. -/
theorem filter_map_eq_flatten_opt {α β : Type} (q : α → Bool) (f : α → β) (l : List α) :
    (l.filter q).map f = (l.map (fun a => if q a then [f a] else [])).flatten := by
  induction l with
  | nil => rfl
  | cons a l ih => by_cases h : q a <;> simp [h, ih]

/-- Helper for C2: per-plugin, the source's eight sequential checks produce
exactly the specification's category-precedence list followed by the
concrete-name handler. -/
theorem pluginHandlersSpec_eq (p : Plugin) (e : Ev) :
    _get_plugin_event_handlers p e = pluginHandlersSpec p e := by
  rw [pluginHandlersSpec, filter_map_eq_flatten_opt]
  simp only [categoryOrder, List.map_cons, List.map_nil, List.flatten_cons, List.flatten_nil,
    Ev.belongs, Category.catName, List.append_nil]
  rw [_get_plugin_event_handlers]
  simp only [optHandler, _get_event_handler, List.append_assoc]

/-- C2: for every event and active plugin list, the resolved handler sequence
is the concatenation, in active-plugin order, of each plugin's own list; a
plugin's list holds, for each of the seven categories in the fixed precedence
order that the event belongs to and for which the plugin exposes the category
handler, that handler, followed last by the plugin's concrete-name handler if
exposed; a plugin matching nothing contributes zero handlers. -/
theorem C2_resolution_matches_spec (e : Ev) (plugins : List Plugin) :
    _get_event_handlers e plugins = eventHandlersSpec e plugins := by
  simp only [_get_event_handlers, eventHandlersSpec, pluginHandlersSpec_eq]

/-- C10: for an event whose concrete name equals the name of a category it
belongs to (here an event of the `MessageEvent` category class itself), a
plugin exposing the single method `handleMessageEvent` contributes that same
handler twice — once via the category check and once via the final
concrete-name check — and the handler is invoked twice for that one event. -/
theorem C10_category_named_event_double_dispatch :
    _get_plugin_event_handlers pMsg eMsg =
      [{ pid := 1, method := "MessageEvent" }, { pid := 1, method := "MessageEvent" }] ∧
    (GameEngine.run { _plugins := [pMsg] } [eMsg] 10).state.trace =
      [.dispatch "InitGame" [],
       .dispatch "MessageEvent"
         [{ pid := 1, method := "MessageEvent" }, { pid := 1, method := "MessageEvent" }],
       .dispatch "EndGame" []] :=
  ⟨by decide, by decide⟩

/-- C1 (code bug record): a run in which `handleEvt1` yields the batch
`[evX, evY]` processes `evY` before `evX`: `deque.extendleft` is called
without the reversal the source's own comment says is required, so a
multi-event batch is spliced in at the front in reverse production order,
contradicting the claim that the first produced event is the very next one
processed. -/
theorem C1_batch_inserted_reversed :
    (GameEngine.run { _plugins := [pYield] } [evT] 10).state.trace =
      [.dispatch "InitGame" [], .dispatch "Evt1" [{ pid := 1, method := "Evt1" }],
       .dispatch "Y" [], .dispatch "X" [], .dispatch "EndGame" []] := by
  decide

/-- C3: processing a front `PluginExit` event removes the named plugin from
the local active-plugin list by identity, clears the entire handler cache,
records `outcome[plugin.name] = (code, details)`, and neither resolves nor
invokes any handler for the event (the trace gains only the `exited` entry,
and no new events are queued) — regardless of any `handlePluginExit` method
any plugin may expose. -/
theorem C3_exit_event_bypasses_handlers (reg : List Plugin) (fuel : Nat) (s : RunState)
    (e : Ev) (rest : List Ev) (p : Plugin) (ps : List Plugin)
    (hq : s.queue = e :: rest) (hn : e.name = "PluginExit")
    (hr : removeFirst s.plugins e.exitPlugin = some (p, ps)) :
    runLoop reg (fuel + 1) s =
      runLoop reg fuel
        { queue := rest
          plugins := ps
          handlers := []
          outcome := setKey s.outcome p.name (e.exitCode, e.exitDetails)
          trace := s.trace ++ [.exited p.id] } :=
  runLoop_exit_step reg fuel s e rest (p, ps) hq hn hr

/-- Witness for C3: a concrete state whose front event is a `PluginExit`
naming `pW` — a plugin that itself exposes `handlePluginExit` — with a
nonempty handler cache; the step removes it, clears the cache and records
`(3, [("msg", "bye")])` without dispatching anything. -/
theorem C3_exit_event_bypasses_handlers_witness :
    runLoop [pW] 5 sW =
      runLoop [pW] 4
        { queue := []
          plugins := []
          handlers := []
          outcome := setKey [] "W" (3, [("msg", "bye")])
          trace := [] ++ [.exited 7] } :=
  C3_exit_event_bypasses_handlers [pW] 4 sW exW [] pW [] rfl rfl rfl

/-- C7: a front `PluginExit` event naming a plugin that is not in the current
active-plugin list makes the run abort at once with the uncaught
identity-not-found error (`ValueError` from `plugins.remove`); nothing is
recorded for it and the outcome mapping stays as it was — only partially
populated, since the terminal default-recording loop is never reached. -/
theorem C7_exit_unknown_plugin_fatal (reg : List Plugin) (fuel : Nat) (s : RunState)
    (e : Ev) (rest : List Ev)
    (hq : s.queue = e :: rest) (hn : e.name = "PluginExit")
    (habs : e.exitPlugin ∉ pluginIds s.plugins) :
    runLoop reg (fuel + 1) s = .valueError { s with queue := rest } :=
  runLoop_exit_fail reg fuel s e rest hq hn (removeFirst_eq_none habs)

/-- Witness for C7: a duplicate exit — the state records that identity 9
already exited (its outcome is present) and the front event names it again;
the run aborts with `valueError`, leaving plugin `B`'s default outcome
unrecorded. -/
theorem C7_exit_unknown_plugin_fatal_witness :
    runLoop [pB7] 6 sUnknown = .valueError { sUnknown with queue := [{ name := "Z" }] } :=
  C7_exit_unknown_plugin_fatal [pB7] 5 sUnknown exUnknown [{ name := "Z" }] rfl rfl (by decide)

/-- C9: `run` never modifies the engine's owned plugin registry — the
state-passing translation returns the engine unchanged, and a subsequent run
on the same engine behaves exactly as a run on a fresh engine with the same
registry, whatever happened (including plugin exits) during the first run. -/
theorem C9_registry_unchanged_by_run (g : GameEngine) (ev1 ev2 : List Ev) (f1 f2 : Nat) :
    (g.runMut ev1 f1).1 = g ∧
    ((g.runMut ev1 f1).1.runMut ev2 f2).2 = (g.runMut ev2 f2).2 :=
  ⟨rfl, rfl⟩

/-! ### C6: default outcomes for plugins still active at the end of a run -/

theorem recordDefaults_cons (p : Plugin) (ps : List Plugin)
    (m : List (String × (Int × Details))) :
    recordDefaults (p :: ps) m = recordDefaults ps (setKey m p.name (0, [])) := rfl

theorem lookupKey_recordDefaults_of_some {ps : List Plugin}
    {m : List (String × (Int × Details))} {n : String}
    (h : lookupKey m n = some (0, [])) :
    lookupKey (recordDefaults ps m) n = some (0, []) := by
  induction ps generalizing m with
  | nil => exact h
  | cons p ps ih =>
    rw [recordDefaults_cons]
    by_cases h2 : p.name = n
    · exact ih (by rw [← h2]; exact lookupKey_setKey_self m p.name (0, []))
    · exact ih (by rw [lookupKey_setKey_ne m p.name n (0, []) (fun h3 => h2 h3.symm)]; exact h)

theorem lookupKey_recordDefaults_mem {ps : List Plugin}
    {m : List (String × (Int × Details))} {p : Plugin} (hp : p ∈ ps) :
    lookupKey (recordDefaults ps m) p.name = some (0, []) := by
  induction ps generalizing m with
  | nil => cases hp
  | cons q ps ih =>
    rw [recordDefaults_cons]
    rcases List.mem_cons.mp hp with h | h
    · subst h
      by_cases h2 : p ∈ ps
      · exact ih h2
      · exact lookupKey_recordDefaults_of_some (lookupKey_setKey_self m p.name (0, []))
    · exact ih h

/-- C6: when a run reaches the terminal state (and only then is the result
`ok`), every plugin still present in the active-plugin list is recorded in
the outcome mapping with the default successful outcome `(0, [])`. -/
theorem C6_active_plugins_get_default_outcome (reg : List Plugin) (fuel : Nat)
    (s : RunState) (hok : (runLoop reg fuel s).isOk = true) (p : Plugin)
    (hp : p ∈ (runLoop reg fuel s).state.plugins) :
    lookupKey (runLoop reg fuel s).state.outcome p.name = some (0, []) := by
  induction fuel generalizing s with
  | zero => simp [runLoop_zero, RunResult.isOk] at hok
  | succ fuel ih =>
    cases hq : s.queue with
    | nil =>
      rw [runLoop_done reg fuel s hq] at hok hp ⊢
      exact lookupKey_recordDefaults_mem hp
    | cons e rest =>
      by_cases hn : e.name = "PluginExit"
      · cases hr : removeFirst s.plugins e.exitPlugin with
        | none =>
          rw [runLoop_exit_fail reg fuel s e rest hq hn hr] at hok
          simp [RunResult.isOk] at hok
        | some pr =>
          rw [runLoop_exit_step reg fuel s e rest pr hq hn hr] at hok hp ⊢
          exact ih _ hok hp
      · cases hc : lookupKey s.handlers e.name with
        | none =>
          rw [runLoop_dispatch_miss reg fuel s e rest hq hn hc] at hok hp ⊢
          exact ih _ hok hp
        | some hs =>
          rw [runLoop_dispatch_hit reg fuel s e rest hs hq hn hc] at hok hp ⊢
          exact ih _ hok hp

/-- An inert plugin named `B` with identity 2, used in the C6 witness. -/
def pC6 : Plugin := { id := 2, name := "B", methods := [], behavior := fun _ _ => [] }

/-- Witness for C6: a run over no input events with the single plugin `pC6`
completes and records `("B", (0, []))`. -/
theorem C6_active_plugins_get_default_outcome_witness :
    lookupKey (GameEngine.run { _plugins := [pC6] } [] 3).state.outcome "B" = some (0, []) :=
  C6_active_plugins_get_default_outcome [pC6] 3
    { queue := InitGameEvent :: ([] ++ [EndGameEvent])
      plugins := [pC6]
      handlers := []
      outcome := []
      trace := [] }
    (by decide) pC6 (show pC6 ∈ [pC6] from List.mem_cons_self pC6 [])

/-! ### C8: queue seeding and sentinel dispatch -/

theorem flatten_map_eq_nil {α β : Type} {l : List α} {f : α → List β}
    (h : ∀ x ∈ l, f x = []) : (l.map f).flatten = [] := by
  induction l with
  | nil => rfl
  | cons a l ih =>
    simp only [List.map_cons, List.flatten_cons, h a (List.mem_cons_self a l),
      List.nil_append]
    exact ih fun x hx => h x (List.mem_cons_of_mem _ hx)

theorem invoke_quiet {reg : List Plugin} {e : Ev}
    (hq : ∀ p ∈ reg, ∀ m, p.behavior m e = []) (h : Handler) : invoke reg h e = [] := by
  unfold invoke
  cases hf : findPlugin reg h.pid with
  | none => rfl
  | some p => exact hq p (mem_of_findPlugin hf) h.method

/-- C8: the run seeds the queue as `[InitGameEvent] ++ events ++ [EndGameEvent]`
with a fresh cache and outcome mapping, and both sentinels go through the
ordinary handler-resolution path keyed by their own concrete names: a run
over an empty input sequence (with handlers that yield nothing on the
sentinels) completes and dispatches exactly `InitGame` and then `EndGame`,
each with the handler list `_get_event_handlers` resolves for it. -/
theorem C8_queue_seeding_and_sentinel_dispatch (g : GameEngine) (events : List Ev)
    (fuel : Nat)
    (hquiet : ∀ p ∈ g._plugins, ∀ m,
      p.behavior m InitGameEvent = [] ∧ p.behavior m EndGameEvent = []) :
    (g.run events fuel =
      runLoop g._plugins fuel
        { queue := InitGameEvent :: (events ++ [EndGameEvent])
          plugins := g._plugins
          handlers := []
          outcome := []
          trace := [] }) ∧
    ((g.run [] (fuel + 3)).isOk = true ∧
      (g.run [] (fuel + 3)).state.trace =
        [.dispatch "InitGame" (_get_event_handlers InitGameEvent g._plugins),
         .dispatch "EndGame" (_get_event_handlers EndGameEvent g._plugins)]) := by
  refine ⟨rfl, ?_⟩
  have hflat1 : ((_get_event_handlers InitGameEvent g._plugins).map
      (fun h => invoke g._plugins h InitGameEvent)).flatten = [] :=
    flatten_map_eq_nil fun h _ => invoke_quiet (fun p hp m => (hquiet p hp m).1) h
  have hflat2 : ((_get_event_handlers EndGameEvent g._plugins).map
      (fun h => invoke g._plugins h EndGameEvent)).flatten = [] :=
    flatten_map_eq_nil fun h _ => invoke_quiet (fun p hp m => (hquiet p hp m).2) h
  have step1 : g.run [] (fuel + 3) =
      runLoop g._plugins (fuel + 2)
        (dispatchState g._plugins
          { queue := InitGameEvent :: ([] ++ [EndGameEvent])
            plugins := g._plugins, handlers := [], outcome := [], trace := [] }
          InitGameEvent ([] ++ [EndGameEvent])
          (_get_event_handlers InitGameEvent g._plugins)
          (setKey [] "InitGame" (_get_event_handlers InitGameEvent g._plugins))) :=
    runLoop_dispatch_miss g._plugins (fuel + 2) _ InitGameEvent ([] ++ [EndGameEvent])
      rfl (by decide) rfl
  have eq1 : dispatchState g._plugins
      { queue := InitGameEvent :: ([] ++ [EndGameEvent])
        plugins := g._plugins, handlers := [], outcome := [], trace := [] }
      InitGameEvent ([] ++ [EndGameEvent])
      (_get_event_handlers InitGameEvent g._plugins)
      (setKey [] "InitGame" (_get_event_handlers InitGameEvent g._plugins)) =
      { queue := [EndGameEvent]
        plugins := g._plugins
        handlers := setKey [] "InitGame" (_get_event_handlers InitGameEvent g._plugins)
        outcome := []
        trace := [.dispatch "InitGame" (_get_event_handlers InitGameEvent g._plugins)] } := by
    have hname : InitGameEvent.name = "InitGame" := rfl
    simp [dispatchState, hflat1, hname]
  have step2 : runLoop g._plugins (fuel + 2)
      { queue := [EndGameEvent]
        plugins := g._plugins
        handlers := setKey [] "InitGame" (_get_event_handlers InitGameEvent g._plugins)
        outcome := []
        trace := [.dispatch "InitGame" (_get_event_handlers InitGameEvent g._plugins)] } =
      runLoop g._plugins (fuel + 1)
        (dispatchState g._plugins
          { queue := [EndGameEvent]
            plugins := g._plugins
            handlers := setKey [] "InitGame" (_get_event_handlers InitGameEvent g._plugins)
            outcome := []
            trace := [.dispatch "InitGame" (_get_event_handlers InitGameEvent g._plugins)] }
          EndGameEvent []
          (_get_event_handlers EndGameEvent g._plugins)
          (setKey (setKey [] "InitGame" (_get_event_handlers InitGameEvent g._plugins))
            "EndGame" (_get_event_handlers EndGameEvent g._plugins))) :=
    runLoop_dispatch_miss g._plugins (fuel + 1) _ EndGameEvent [] rfl (by decide)
      ((lookupKey_setKey_ne [] "InitGame" "EndGame"
        (_get_event_handlers InitGameEvent g._plugins) (by decide)).trans rfl)
  have eq2 : dispatchState g._plugins
      { queue := [EndGameEvent]
        plugins := g._plugins
        handlers := setKey [] "InitGame" (_get_event_handlers InitGameEvent g._plugins)
        outcome := []
        trace := [.dispatch "InitGame" (_get_event_handlers InitGameEvent g._plugins)] }
      EndGameEvent []
      (_get_event_handlers EndGameEvent g._plugins)
      (setKey (setKey [] "InitGame" (_get_event_handlers InitGameEvent g._plugins))
        "EndGame" (_get_event_handlers EndGameEvent g._plugins)) =
      { queue := []
        plugins := g._plugins
        handlers := setKey (setKey [] "InitGame" (_get_event_handlers InitGameEvent g._plugins))
          "EndGame" (_get_event_handlers EndGameEvent g._plugins)
        outcome := []
        trace := [.dispatch "InitGame" (_get_event_handlers InitGameEvent g._plugins),
                  .dispatch "EndGame" (_get_event_handlers EndGameEvent g._plugins)] } := by
    have hname : EndGameEvent.name = "EndGame" := rfl
    simp [dispatchState, hflat2, hname]
  have step3 : runLoop g._plugins (fuel + 1)
      { queue := []
        plugins := g._plugins
        handlers := setKey (setKey [] "InitGame" (_get_event_handlers InitGameEvent g._plugins))
          "EndGame" (_get_event_handlers EndGameEvent g._plugins)
        outcome := []
        trace := [.dispatch "InitGame" (_get_event_handlers InitGameEvent g._plugins),
                  .dispatch "EndGame" (_get_event_handlers EndGameEvent g._plugins)] } =
      .ok (finalizeState
        { queue := []
          plugins := g._plugins
          handlers := setKey (setKey [] "InitGame" (_get_event_handlers InitGameEvent g._plugins))
            "EndGame" (_get_event_handlers EndGameEvent g._plugins)
          outcome := []
          trace := [.dispatch "InitGame" (_get_event_handlers InitGameEvent g._plugins),
                    .dispatch "EndGame" (_get_event_handlers EndGameEvent g._plugins)] }) :=
    runLoop_done g._plugins fuel _ rfl
  have hrun := step1.trans ((congrArg (runLoop g._plugins (fuel + 2)) eq1).trans
    (step2.trans ((congrArg (runLoop g._plugins (fuel + 1)) eq2).trans step3)))
  rw [hrun]
  exact ⟨rfl, rfl⟩

/-- A plugin exposing `handleInitGame` and `handleEndGame` (yielding
nothing), used in the C8 witness. -/
def pSentinel : Plugin :=
  { id := 4, name := "S", methods := ["InitGame", "EndGame"], behavior := fun _ _ => [] }

/-- Witness for C8: concrete engine with one plugin handling both sentinels;
the empty-input run completes, and both sentinels are dispatched through the
ordinary resolution path. -/
theorem C8_queue_seeding_and_sentinel_dispatch_witness :
    (GameEngine.run { _plugins := [pSentinel] } [evT] 0 =
      runLoop [pSentinel] 0
        { queue := InitGameEvent :: ([evT] ++ [EndGameEvent])
          plugins := [pSentinel]
          handlers := []
          outcome := []
          trace := [] }) ∧
    ((GameEngine.run { _plugins := [pSentinel] } [] (0 + 3)).isOk = true ∧
      (GameEngine.run { _plugins := [pSentinel] } [] (0 + 3)).state.trace =
        [.dispatch "InitGame" (_get_event_handlers InitGameEvent [pSentinel]),
         .dispatch "EndGame" (_get_event_handlers EndGameEvent [pSentinel])]) :=
  C8_queue_seeding_and_sentinel_dispatch { _plugins := [pSentinel] } [evT] 0
    (by intro p hp m
        cases List.mem_singleton.mp hp
        exact ⟨rfl, rfl⟩)

/-! ### Trace index infrastructure for the temporal claims C4 and C5 -/

theorem lt_length_of_getElem?_some {α : Type} {t : List α} {i : Nat} {a : α}
    (h : t[i]? = some a) : i < t.length := by
  by_contra h2
  rw [List.getElem?_eq_none (Nat.le_of_not_lt h2)] at h
  cases h

theorem getElem?_snoc_cases {α : Type} {t : List α} {b a : α} {i : Nat}
    (h : (t ++ [b])[i]? = some a) :
    (i < t.length ∧ t[i]? = some a) ∨ (i = t.length ∧ a = b) := by
  have hlen : i < t.length + 1 := by
    have := lt_length_of_getElem?_some h
    simpa using this
  rcases Nat.lt_or_ge i t.length with h1 | h1
  · exact Or.inl ⟨h1, by rw [List.getElem?_append_left h1] at h; exact h⟩
  · have h2 : i = t.length := Nat.le_antisymm (Nat.lt_succ_iff.mp hlen) h1
    subst h2
    rw [List.getElem?_concat_length] at h
    exact Or.inr ⟨rfl, (Option.some_inj.mp h).symm⟩

theorem exitedPids_snoc_dispatch (t : List TraceEntry) (n : String) (hs : List Handler) :
    exitedPids (t ++ [.dispatch n hs]) = exitedPids t := by
  simp [exitedPids]

theorem exitedPids_snoc_exited (t : List TraceEntry) (pid : Nat) :
    exitedPids (t ++ [.exited pid]) = exitedPids t ++ [pid] := by
  simp [exitedPids]

theorem mem_exitedPids_of_getElem? {t : List TraceEntry} {i pid : Nat}
    (h : t[i]? = some (.exited pid)) : pid ∈ exitedPids t :=
  List.mem_filterMap.mpr ⟨.exited pid, List.getElem?_mem h, rfl⟩

/-! ### C4 invariant: no handler of an exited plugin is dispatched later -/

/-- The temporal property claimed by C4 over a run trace: once the exit of a
plugin has been processed (an `exited` entry), no later dispatch entry
contains a handler bound to that plugin. -/
def noInvokeAfterExit (t : List TraceEntry) : Prop :=
  ∀ (i j pid : Nat) (n : String) (hs : List Handler) (m : String),
    i < j → t[i]? = some (.exited pid) →
    t[j]? = some (.dispatch n hs) → Handler.mk pid m ∉ hs

theorem noInvokeAfterExit_nil : noInvokeAfterExit [] := by
  intro i j pid n hs m _ hi _
  simp at hi

theorem noInvokeAfterExit_snoc_dispatch {t : List TraceEntry} {n0 : String}
    {hs0 : List Handler} (ht : noInvokeAfterExit t)
    (hfresh : ∀ h ∈ hs0, h.pid ∉ exitedPids t) :
    noInvokeAfterExit (t ++ [.dispatch n0 hs0]) := by
  intro i j pid n hs m hij hi hj
  rcases getElem?_snoc_cases hj with ⟨hjlen, hj2⟩ | ⟨hjeq, hj2⟩
  · have hilen : i < t.length := Nat.lt_trans hij hjlen
    rw [List.getElem?_append_left hilen] at hi
    exact ht i j pid n hs m hij hi hj2
  · cases hj2
    have hilen : i < t.length := by rw [← hjeq]; exact hij
    rw [List.getElem?_append_left hilen] at hi
    intro hmem
    exact hfresh (Handler.mk pid m) hmem (mem_exitedPids_of_getElem? hi)

theorem noInvokeAfterExit_snoc_exited {t : List TraceEntry} {pid0 : Nat}
    (ht : noInvokeAfterExit t) : noInvokeAfterExit (t ++ [.exited pid0]) := by
  intro i j pid n hs m hij hi hj
  rcases getElem?_snoc_cases hj with ⟨hjlen, hj2⟩ | ⟨_, hj2⟩
  · have hilen : i < t.length := Nat.lt_trans hij hjlen
    rw [List.getElem?_append_left hilen] at hi
    exact ht i j pid n hs m hij hi hj2
  · cases hj2

/-- The C4 run invariant: active identities are pairwise distinct, exited
identities are no longer active, every cached handler belongs to an active
plugin, and the trace so far satisfies the claimed temporal property. -/
def Inv4 (s : RunState) : Prop :=
  (pluginIds s.plugins).Nodup ∧
  (∀ pid ∈ exitedPids s.trace, pid ∉ pluginIds s.plugins) ∧
  (∀ n hs, lookupKey s.handlers n = some hs → ∀ h ∈ hs, h.pid ∈ pluginIds s.plugins) ∧
  noInvokeAfterExit s.trace

theorem Inv4_dispatch {reg : List Plugin} {s : RunState} {e : Ev} {rest : List Ev}
    {hs : List Handler} {cache : List (String × List Handler)} (hinv : Inv4 s)
    (hpids : ∀ h ∈ hs, h.pid ∈ pluginIds s.plugins)
    (hcache : ∀ n2 hs2, lookupKey cache n2 = some hs2 →
      ∀ h ∈ hs2, h.pid ∈ pluginIds s.plugins) :
    Inv4 (dispatchState reg s e rest hs cache) := by
  obtain ⟨hnd, hexit, _, htr⟩ := hinv
  refine ⟨hnd, ?_, hcache, ?_⟩
  · show ∀ pid ∈ exitedPids (s.trace ++ [.dispatch e.name hs]), pid ∉ pluginIds s.plugins
    rw [exitedPids_snoc_dispatch]
    exact hexit
  · show noInvokeAfterExit (s.trace ++ [.dispatch e.name hs])
    refine noInvokeAfterExit_snoc_dispatch htr ?_
    intro h hmem hex
    exact hexit h.pid hex (hpids h hmem)

theorem Inv4_exit {s : RunState} {e : Ev} {rest : List Ev} {pr : Plugin × List Plugin}
    (hinv : Inv4 s) (hr : removeFirst s.plugins e.exitPlugin = some pr) :
    Inv4 (exitState s rest pr e) := by
  obtain ⟨hnd, hexit, _, htr⟩ := hinv
  obtain ⟨l, r, hps, hrest, hid, hl⟩ := removeFirst_eq_some hr
  refine ⟨removeFirst_nodup hr hnd, ?_, ?_, noInvokeAfterExit_snoc_exited htr⟩
  · show ∀ pid ∈ exitedPids (s.trace ++ [.exited pr.1.id]), pid ∉ pluginIds pr.2
    rw [exitedPids_snoc_exited]
    intro pid hmem
    rcases List.mem_append.mp hmem with h1 | h1
    · intro h2
      exact hexit pid h1 (removeFirst_ids_sub hr pid h2)
    · have h2 : pid = pr.1.id := List.mem_singleton.mp h1
      subst h2
      rw [hid]
      exact removeFirst_not_mem hr hnd
  · intro n2 hs2 hl2
    simp [lookupKey] at hl2

theorem runLoop_inv4 (reg : List Plugin) (fuel : Nat) :
    ∀ s : RunState, Inv4 s → Inv4 (runLoop reg fuel s).state := by
  induction fuel with
  | zero => intro s hinv; exact hinv
  | succ fuel ih =>
    intro s hinv
    cases hq : s.queue with
    | nil =>
      rw [runLoop_done reg fuel s hq]
      exact hinv
    | cons e rest =>
      by_cases hn : e.name = "PluginExit"
      · cases hr : removeFirst s.plugins e.exitPlugin with
        | none =>
          rw [runLoop_exit_fail reg fuel s e rest hq hn hr]
          exact hinv
        | some pr =>
          rw [runLoop_exit_step reg fuel s e rest pr hq hn hr]
          exact ih _ (Inv4_exit hinv hr)
      · cases hc : lookupKey s.handlers e.name with
        | none =>
          rw [runLoop_dispatch_miss reg fuel s e rest hq hn hc]
          refine ih _ (Inv4_dispatch hinv (fun h hm => mem_event_handlers_pid hm) ?_)
          intro n2 hs2 hl2 h hm
          by_cases h2 : n2 = e.name
          · subst h2
            rw [lookupKey_setKey_self] at hl2
            cases hl2
            exact mem_event_handlers_pid hm
          · rw [lookupKey_setKey_ne _ _ _ _ h2] at hl2
            exact hinv.2.2.1 n2 hs2 hl2 h hm
        | some hs =>
          rw [runLoop_dispatch_hit reg fuel s e rest hs hq hn hc]
          exact ih _ (Inv4_dispatch hinv (hinv.2.2.1 e.name hs hc) hinv.2.2.1)

/-- A second inert plugin (identity 4) handling `Evt1`, used alongside
`pDup` in the C4 witness run. -/
def pE4 : Plugin :=
  { id := 4, name := "E", methods := ["Evt1"], behavior := fun _ _ => [] }

/-- C4 counterexample: the claim as stated — with no restriction on duplicate
registration — is false.  Registering the same plugin object twice
(`register_plugin` deduplicates nothing) and processing a `PluginExit` naming
it removes only the first occurrence, so a handler of the exited plugin
(identity 3) is still dispatched at a later step. -/
theorem C4_counterexample :
    ¬ (∀ (i j pid : Nat) (n : String) (hs : List Handler) (m : String), i < j →
        (GameEngine.run { _plugins := [pDup, pDup] } [exitD, evT] 10).state.trace[i]? =
          some (.exited pid) →
        (GameEngine.run { _plugins := [pDup, pDup] } [exitD, evT] 10).state.trace[j]? =
          some (.dispatch n hs) →
        Handler.mk pid m ∉ hs) := by
  intro h
  exact h 1 2 3 "Evt1" [{ pid := 3, method := "Evt1" }] "Evt1" (by decide) (by decide)
    (by decide) (by decide)

/-- C4 (amended: the registry must not contain duplicate registrations, i.e.
active identities are pairwise distinct — the duplicate-registration run
above shows the unrestricted claim fails): once a control exit event naming a
plugin has been processed, no handler belonging to that plugin is invoked for
any event processed at a later step of the same run. -/
theorem C4_no_handler_after_exit (g : GameEngine) (events : List Ev) (fuel : Nat)
    (hnd : (pluginIds g._plugins).Nodup)
    (i j pid : Nat) (n : String) (hs : List Handler) (m : String) (hij : i < j)
    (hi : (g.run events fuel).state.trace[i]? = some (.exited pid))
    (hj : (g.run events fuel).state.trace[j]? = some (.dispatch n hs)) :
    Handler.mk pid m ∉ hs := by
  have hinv0 : Inv4
      { queue := InitGameEvent :: (events ++ [EndGameEvent])
        plugins := g._plugins
        handlers := []
        outcome := []
        trace := [] } := by
    refine ⟨hnd, ?_, ?_, noInvokeAfterExit_nil⟩
    · intro pid2 hmem
      simp [exitedPids] at hmem
    · intro n2 hs2 hl2
      simp [lookupKey] at hl2
  exact (runLoop_inv4 g._plugins fuel _ hinv0).2.2.2 i j pid n hs m hij hi hj

/-- Witness for C4: in a run with distinct plugins `pDup` (identity 3) and
`pE4` (identity 4) where identity 3 exits at step 1 and `Evt1` is dispatched
at step 2, the amended theorem yields that no handler of identity 3 is in the
dispatched list. -/
theorem C4_no_handler_after_exit_witness :
    Handler.mk 3 "Evt1" ∉ [Handler.mk 4 "Evt1"] :=
  C4_no_handler_after_exit { _plugins := [pDup, pE4] } [exitD, evT] 10 (by decide)
    1 2 3 "Evt1" [Handler.mk 4 "Evt1"] "Evt1" (by decide) (by decide) (by decide)

/-! ### C5 invariant: cached resolution is reused between exits -/

/-- The property claimed by C5 over a run trace: two dispatches of events
sharing the same name, with no plugin exit processed between them, used the
same handler list. -/
def stableResolution (t : List TraceEntry) : Prop :=
  ∀ (i j : Nat) (n : String) (hs hs2 : List Handler), i < j →
    t[i]? = some (.dispatch n hs) → t[j]? = some (.dispatch n hs2) →
    (∀ (k pid : Nat), i < k → k < j → t[k]? ≠ some (.exited pid)) → hs2 = hs

/-- Cache/trace link: a dispatched name with no exit processed after it is
still cached with the very list that was dispatched. -/
def cacheMatches (t : List TraceEntry) (cache : List (String × List Handler)) : Prop :=
  ∀ (i : Nat) (n : String) (hs : List Handler), t[i]? = some (.dispatch n hs) →
    (∀ (k pid : Nat), i < k → t[k]? ≠ some (.exited pid)) → lookupKey cache n = some hs

/-- The C5 run invariant. -/
def Inv5 (s : RunState) : Prop :=
  stableResolution s.trace ∧ cacheMatches s.trace s.handlers

theorem Inv5_dispatch_hit {reg : List Plugin} {s : RunState} {e : Ev} {rest : List Ev}
    {hs0 : List Handler} (hinv : Inv5 s)
    (hc : lookupKey s.handlers e.name = some hs0) :
    Inv5 (dispatchState reg s e rest hs0 s.handlers) := by
  obtain ⟨hst, hcm⟩ := hinv
  constructor
  · show stableResolution (s.trace ++ [.dispatch e.name hs0])
    intro i j n hs hs2 hij hi hj hmid
    rcases getElem?_snoc_cases hj with ⟨hjlen, hj2⟩ | ⟨hjeq, hj2⟩
    · have hilen : i < s.trace.length := Nat.lt_trans hij hjlen
      rw [List.getElem?_append_left hilen] at hi
      refine hst i j n hs hs2 hij hi hj2 ?_
      intro k pid hik hkj
      have h3 := hmid k pid hik hkj
      rw [List.getElem?_append_left (Nat.lt_trans hkj hjlen)] at h3
      exact h3
    · injection hj2 with hn2 hhs2
      have hilen : i < s.trace.length := by omega
      rw [List.getElem?_append_left hilen] at hi
      have hafter : ∀ (k pid : Nat), i < k → s.trace[k]? ≠ some (.exited pid) := by
        intro k pid hik hk
        have hklen : k < s.trace.length := lt_length_of_getElem?_some hk
        have h3 := hmid k pid hik (by omega)
        rw [List.getElem?_append_left hklen] at h3
        exact h3 hk
      have hcm2 := hcm i n hs hi hafter
      rw [hn2, hc] at hcm2
      have hseq : hs0 = hs := Option.some_inj.mp hcm2
      rw [hhs2, hseq]
  · show cacheMatches (s.trace ++ [.dispatch e.name hs0]) s.handlers
    intro i n hs hi hafter
    rcases getElem?_snoc_cases hi with ⟨hilen, hi2⟩ | ⟨hieq, hi2⟩
    · refine hcm i n hs hi2 ?_
      intro k pid hik hk
      have hklen : k < s.trace.length := lt_length_of_getElem?_some hk
      have h3 := hafter k pid hik
      rw [List.getElem?_append_left hklen] at h3
      exact h3 hk
    · injection hi2 with hn2 hhs2
      rw [hn2, hhs2]
      exact hc

theorem Inv5_dispatch_miss {reg : List Plugin} {s : RunState} {e : Ev} {rest : List Ev}
    (hinv : Inv5 s) (hc : lookupKey s.handlers e.name = none) :
    Inv5 (dispatchState reg s e rest (_get_event_handlers e s.plugins)
      (setKey s.handlers e.name (_get_event_handlers e s.plugins))) := by
  obtain ⟨hst, hcm⟩ := hinv
  constructor
  · show stableResolution (s.trace ++ [.dispatch e.name (_get_event_handlers e s.plugins)])
    intro i j n hs hs2 hij hi hj hmid
    rcases getElem?_snoc_cases hj with ⟨hjlen, hj2⟩ | ⟨hjeq, hj2⟩
    · have hilen : i < s.trace.length := Nat.lt_trans hij hjlen
      rw [List.getElem?_append_left hilen] at hi
      refine hst i j n hs hs2 hij hi hj2 ?_
      intro k pid hik hkj
      have h3 := hmid k pid hik hkj
      rw [List.getElem?_append_left (Nat.lt_trans hkj hjlen)] at h3
      exact h3
    · injection hj2 with hn2 hhs2
      have hilen : i < s.trace.length := by omega
      rw [List.getElem?_append_left hilen] at hi
      have hafter : ∀ (k pid : Nat), i < k → s.trace[k]? ≠ some (.exited pid) := by
        intro k pid hik hk
        have hklen : k < s.trace.length := lt_length_of_getElem?_some hk
        have h3 := hmid k pid hik (by omega)
        rw [List.getElem?_append_left hklen] at h3
        exact h3 hk
      have hcm2 := hcm i n hs hi hafter
      rw [hn2, hc] at hcm2
      cases hcm2
  · show cacheMatches (s.trace ++ [.dispatch e.name (_get_event_handlers e s.plugins)])
      (setKey s.handlers e.name (_get_event_handlers e s.plugins))
    intro i n hs hi hafter
    rcases getElem?_snoc_cases hi with ⟨hilen, hi2⟩ | ⟨hieq, hi2⟩
    · have hres : lookupKey s.handlers n = some hs := by
        refine hcm i n hs hi2 ?_
        intro k pid hik hk
        have hklen : k < s.trace.length := lt_length_of_getElem?_some hk
        have h3 := hafter k pid hik
        rw [List.getElem?_append_left hklen] at h3
        exact h3 hk
      by_cases h2 : n = e.name
      · rw [h2, hc] at hres
        cases hres
      · rw [lookupKey_setKey_ne _ _ _ _ h2]
        exact hres
    · injection hi2 with hn2 hhs2
      rw [hn2, hhs2]
      exact lookupKey_setKey_self _ _ _

theorem Inv5_exit {s : RunState} {e : Ev} {rest : List Ev} {pr : Plugin × List Plugin}
    (hinv : Inv5 s) : Inv5 (exitState s rest pr e) := by
  obtain ⟨hst, _⟩ := hinv
  constructor
  · show stableResolution (s.trace ++ [.exited pr.1.id])
    intro i j n hs hs2 hij hi hj hmid
    rcases getElem?_snoc_cases hj with ⟨hjlen, hj2⟩ | ⟨_, hj2⟩
    · have hilen : i < s.trace.length := Nat.lt_trans hij hjlen
      rw [List.getElem?_append_left hilen] at hi
      refine hst i j n hs hs2 hij hi hj2 ?_
      intro k pid hik hkj
      have h3 := hmid k pid hik hkj
      rw [List.getElem?_append_left (Nat.lt_trans hkj hjlen)] at h3
      exact h3
    · cases hj2
  · show cacheMatches (s.trace ++ [.exited pr.1.id]) []
    intro i n hs hi hafter
    rcases getElem?_snoc_cases hi with ⟨hilen, hi2⟩ | ⟨_, hi2⟩
    · exfalso
      have h3 := hafter s.trace.length pr.1.id hilen
      rw [List.getElem?_concat_length] at h3
      exact h3 rfl
    · cases hi2

theorem runLoop_inv5 (reg : List Plugin) (fuel : Nat) :
    ∀ s : RunState, Inv5 s → Inv5 (runLoop reg fuel s).state := by
  induction fuel with
  | zero => intro s hinv; exact hinv
  | succ fuel ih =>
    intro s hinv
    cases hq : s.queue with
    | nil =>
      rw [runLoop_done reg fuel s hq]
      exact hinv
    | cons e rest =>
      by_cases hn : e.name = "PluginExit"
      · cases hr : removeFirst s.plugins e.exitPlugin with
        | none =>
          rw [runLoop_exit_fail reg fuel s e rest hq hn hr]
          exact hinv
        | some pr =>
          rw [runLoop_exit_step reg fuel s e rest pr hq hn hr]
          exact ih _ (Inv5_exit hinv)
      · cases hc : lookupKey s.handlers e.name with
        | none =>
          rw [runLoop_dispatch_miss reg fuel s e rest hq hn hc]
          exact ih _ (Inv5_dispatch_miss hinv hc)
        | some hs =>
          rw [runLoop_dispatch_hit reg fuel s e rest hs hq hn hc]
          exact ih _ (Inv5_dispatch_hit hinv hc)

/-- C5: two events processed in one run that share the same name, with no
control exit event processed between them, resolve to exactly the same
handler list (the second reuses the first's cached list). -/
theorem C5_same_name_same_handlers (g : GameEngine) (events : List Ev) (fuel : Nat)
    (i j : Nat) (n : String) (hs hs2 : List Handler) (hij : i < j)
    (hi : (g.run events fuel).state.trace[i]? = some (.dispatch n hs))
    (hj : (g.run events fuel).state.trace[j]? = some (.dispatch n hs2))
    (hmid : ∀ (k pid : Nat), i < k → k < j →
      (g.run events fuel).state.trace[k]? ≠ some (.exited pid)) :
    hs2 = hs := by
  have hinv0 : Inv5
      { queue := InitGameEvent :: (events ++ [EndGameEvent])
        plugins := g._plugins
        handlers := []
        outcome := []
        trace := [] } := by
    constructor
    · intro i2 j2 n2 hs3 hs4 _ hi2 _ _
      simp at hi2
    · intro i2 n2 hs3 hi2 _
      simp at hi2
  exact (runLoop_inv5 g._plugins fuel _ hinv0).1 i j n hs hs2 hij hi hj hmid

/-- Witness for C5: a run dispatching `Evt1` twice consecutively (no exit in
between) used the same cached singleton handler list both times. -/
theorem C5_same_name_same_handlers_witness :
    [Handler.mk 3 "Evt1"] = [Handler.mk 3 "Evt1"] :=
  C5_same_name_same_handlers { _plugins := [pDup] } [evT, evT] 10
    1 2 "Evt1" [Handler.mk 3 "Evt1"] [Handler.mk 3 "Evt1"] (by decide) (by decide)
    (by decide) (by intro k pid h1 h2; omega)

end SC2


